import Mathlib

/-!
Verification development for the `ocean_optics` GUI acquisition core
(`src/ocean_optics/gui.py`): the measurement workers (Integrate and
Continuous modes), the supervisor (`UserInterface`) start/stop routing, and
the data-export path.  Spectra themselves are opaque to this layer (the GUI
only forwards the arrays produced by the device), so sample data is a type
parameter `α` throughout.
-/

namespace OceanOptics

/-- An emission observable on the worker's outgoing signals: either a
`new_data` payload (a spectrum) or a `progress` payload (a 1-based step
index).  Mirrors the two Qt signals of `IntegrateSpectrumWorker`. -/
inductive Event (α : Type) where
  | spectrum (s : α)
  | progress (idx : Nat)
  deriving DecidableEq, Repr

/-- Number of `new_data` (spectrum) emissions in a trace. -/
def spectrumCount {α : Type} (t : List (Event α)) : Nat :=
  t.countP fun e => match e with
    | .spectrum _ => true
    | .progress _ => false

/-- The sequence of `progress` indices in a trace, in emission order. -/
def progressIndices {α : Type} (t : List (Event α)) : List Nat :=
  t.filterMap fun e => match e with
    | .spectrum _ => none
    | .progress i => some i

/-- Loop body of `IntegrateSpectrumWorker.run` (gui.py lines 45-53), coupled
with the device generator it iterates over.

The generator `experiment.integrate_spectrum(count)` lives in
`spectroscopy.py`, which is not part of the sources here.  Modelled from the
spec: `readAveragedSeries(count)` is a lazy sequence of at most `count`
spectra that checks the experiment-level stop signal before each further
hardware read and yields nothing more once it is set (§4.1, §6).

Parameters: `scan i` is the spectrum the generator yields at step `i`
(1-based); `stop i` is the value of the worker's `stopped` flag at the check
performed after step `i`'s two emissions (line 52) — the flag is written
asynchronously by `stop()`, so it is modelled as an arbitrary observation
function.  `idx` is the next step index, `n` the number of generator steps
remaining (`count + 1 - idx`), `expStopped` the experiment-level stop signal
set by line 53. -/
def integrateRunAux {α : Type} (scan : Nat → α) (stop : Nat → Bool)
    (idx : Nat) : Nat → Bool → List (Event α)
  | 0, _ => []
  | _ + 1, true => []
  | n + 1, false =>
      Event.spectrum (scan idx) :: Event.progress idx ::
        integrateRunAux scan stop (idx + 1) n (stop idx)

/-- One run of `IntegrateSpectrumWorker.run` with `self.count = count`:
the `for idx, (wavelengths, intensities) in enumerate(..., start=1)` loop,
emitting `new_data` then `progress(idx)` at each step and forwarding the
worker's stop flag to the experiment when observed set. -/
def integrateRun {α : Type} (count : Nat) (scan : Nat → α)
    (stop : Nat → Bool) : List (Event α) :=
  integrateRunAux scan stop 1 count false

/-- The interleaved trace a full `k`-step integrate run should produce:
spectrum then progress for each step `idx = 1 .. k`. -/
def fullIntegrateTrace {α : Type} (k : Nat) (scan : Nat → α) : List (Event α) :=
  (List.range' 1 k).flatMap fun i => [Event.spectrum (scan i), Event.progress i]

theorem integrateRunAux_no_stop {α : Type} (scan : Nat → α) :
    ∀ (n idx : Nat), integrateRunAux scan (fun _ => false) idx n false =
      (List.range' idx n).flatMap
        (fun i => [Event.spectrum (scan i), Event.progress i]) := by
  intro n
  induction n with
  | zero => intro idx; simp [integrateRunAux]
  | succ m ih =>
      intro idx
      simp [integrateRunAux, List.range'_succ, ih (idx + 1)]

theorem spectrumCount_blocks {α : Type} (scan : Nat → α) (l : List Nat) :
    spectrumCount (l.flatMap
      (fun i => [Event.spectrum (scan i), Event.progress i])) = l.length := by
  induction l with
  | nil => simp [spectrumCount]
  | cons a t ih => simp_all [spectrumCount]

theorem progressIndices_blocks {α : Type} (scan : Nat → α) (l : List Nat) :
    progressIndices (l.flatMap
      (fun i => [Event.spectrum (scan i), Event.progress i])) = l := by
  induction l with
  | nil => simp [progressIndices]
  | cons a t ih => simp_all [progressIndices]

theorem integrateRunAux_expStopped {α : Type} (scan : Nat → α)
    (stop : Nat → Bool) (idx n : Nat) :
    integrateRunAux scan stop idx n true = [] := by
  cases n <;> simp [integrateRunAux]

theorem integrateRunAux_stop_bound {α : Type} (scan : Nat → α)
    (stop : Nat → Bool) (i : Nat) (hstop : stop i = true) :
    ∀ n idx, idx ≤ i →
      spectrumCount (integrateRunAux scan stop idx n false) ≤ i + 1 - idx := by
  intro n
  induction n with
  | zero => intro idx _; simp [integrateRunAux, spectrumCount]
  | succ m ih =>
      intro idx hidx
      by_cases h : stop idx = true
      · simp [integrateRunAux, h, integrateRunAux_expStopped, spectrumCount,
          List.countP_cons]
        omega
      · have hne : idx ≠ i := fun he => h (he ▸ hstop)
        have hsucc := ih (idx + 1) (by omega)
        simp only [integrateRunAux, Bool.not_eq_true] at *
        simp [h, spectrumCount, List.countP_cons] at *
        omega

/-- C1: for every `scanCount = k ≥ 1`, if the progressive-averaging generator
yields `k` spectra and the stop flag is never observed set, one run of
`IntegrateSpectrumWorker.run` produces exactly the interleaved trace
spectrum/progress for steps `1..k`: exactly `k` spectrum emissions, and
progress indices exactly `[1, 2, ..., k]` in strictly increasing order, each
spectrum emission immediately preceding its same-index progress emission. -/
theorem integrate_full_run_emissions {α : Type} (k : Nat) (scan : Nat → α)
    (hk : 1 ≤ k) :
    integrateRun k scan (fun _ => false) = fullIntegrateTrace k scan ∧
    spectrumCount (integrateRun k scan (fun _ => false)) = k ∧
    progressIndices (integrateRun k scan (fun _ => false)) = List.range' 1 k := by
  have htr : integrateRun k scan (fun _ => false) = fullIntegrateTrace k scan := by
    simpa [integrateRun, fullIntegrateTrace] using
      integrateRunAux_no_stop scan k 1
  refine ⟨htr, ?_, ?_⟩
  · rw [htr]
    simpa using spectrumCount_blocks scan (List.range' 1 k)
  · rw [htr]
    exact progressIndices_blocks scan (List.range' 1 k)

theorem integrate_full_run_emissions_witness :
    1 ≤ 3 ∧
    (integrateRun 3 (fun i => i) (fun _ => false) =
        fullIntegrateTrace 3 (fun i => i) ∧
      spectrumCount (integrateRun 3 (fun i => i) (fun _ => false)) = 3 ∧
      progressIndices (integrateRun 3 (fun i => i) (fun _ => false)) =
        List.range' 1 3) :=
  ⟨by decide, integrate_full_run_emissions 3 (fun i => i) (by decide)⟩

/-- C2: if during an integrate run with `scanCount = k` the worker's stop
flag is observed set at the check following step `i < k`, then the run's
total number of spectrum emissions is at most `i`, strictly below `k`: the
loop exits without reaching `scanCount` steps, because line 53 signals the
experiment-level stop and the generator performs no further reads.
(The generator's early-stop behaviour is modelled from the spec, §4.1/§6,
since `spectroscopy.py` is not among the sources.) -/
theorem integrate_stop_bounds_emissions {α : Type} (k i : Nat)
    (scan : Nat → α) (stop : Nat → Bool)
    (hi : 1 ≤ i) (hik : i < k) (hstop : stop i = true) :
    spectrumCount (integrateRun k scan stop) ≤ i ∧
    spectrumCount (integrateRun k scan stop) < k := by
  have hb := integrateRunAux_stop_bound scan stop i hstop k 1 hi
  constructor
  · simpa [integrateRun] using le_trans hb (by omega)
  · exact lt_of_le_of_lt (by simpa [integrateRun] using le_trans hb (by omega)) hik

theorem integrate_stop_bounds_emissions_witness :
    1 ≤ 2 ∧ 2 < 5 ∧ (fun j => j == 2) 2 = true ∧
    (spectrumCount (integrateRun 5 (fun i => i) (fun j => j == 2)) ≤ 2 ∧
      spectrumCount (integrateRun 5 (fun i => i) (fun j => j == 2)) < 5) :=
  ⟨by decide, by decide, by decide,
    integrate_stop_bounds_emissions 5 2 (fun i => i) (fun j => j == 2)
      (by decide) (by decide) (by decide)⟩

/-- Error taxonomy of the device layer (`DeviceNotFoundError` is imported by
gui.py line 11; `DeviceError` is the spec's name for an I/O failure during a
read). -/
inductive DeviceError where
  | deviceError
  | deviceNotFound
  deriving DecidableEq, Repr

/-- How one bounded observation of `ContinuousSpectrumWorker.run` ends:
`finished` — the loop hit `break` (line 63), so `run` returned and Qt fires
the `finished` signal; `stillRunning` — the observation window (`fuel`
iterations) elapsed with the loop still going (the `while True` loop has no
other exit); `raised e` — `self.experiment.get_spectrum()` raised and, since
there is no `try`/`except` in `run`, the exception escaped `run` uncaught. -/
inductive ContOutcome where
  | finished
  | stillRunning
  | raised (e : DeviceError)
  deriving DecidableEq, Repr

/-- Loop of `ContinuousSpectrumWorker.run` (gui.py lines 57-63), observed for
at most `fuel` iterations.  `scan i` is the result of the `i`-th
`get_spectrum()` call (1-based); `stop i` is the value of the worker's
`stopped` flag at the check (line 62) after the `i`-th emission.  Returns the
list of emitted spectra and how the observation ended. -/
def contRunAux {α : Type} (scan : Nat → Except DeviceError α)
    (stop : Nat → Bool) (idx : Nat) : Nat → List α × ContOutcome
  | 0 => ([], .stillRunning)
  | fuel + 1 =>
      match scan idx with
      | .error e => ([], .raised e)
      | .ok sp =>
          if stop idx then ([sp], .finished)
          else
            let r := contRunAux scan stop (idx + 1) fuel
            (sp :: r.1, r.2)

/-- A continuous run against a device whose reads all succeed (`dev i` is the
`i`-th spectrum), observed for `fuel` iterations from the first read. -/
def contRun {α : Type} (dev : Nat → α) (stop : Nat → Bool)
    (fuel : Nat) : List α × ContOutcome :=
  contRunAux (fun i => Except.ok (dev i)) stop 1 fuel

theorem contRunAux_step_error {α : Type} (scan : Nat → Except DeviceError α)
    (stop : Nat → Bool) (idx fuel : Nat) (e : DeviceError)
    (hscan : scan idx = Except.error e) :
    contRunAux scan stop idx (fuel + 1) = ([], .raised e) := by
  simp [contRunAux, hscan]

theorem contRunAux_step_stop {α : Type} (scan : Nat → Except DeviceError α)
    (stop : Nat → Bool) (idx fuel : Nat) (sp : α)
    (hscan : scan idx = Except.ok sp) (hs : stop idx = true) :
    contRunAux scan stop idx (fuel + 1) = ([sp], .finished) := by
  simp [contRunAux, hscan, hs]

theorem contRunAux_step_go {α : Type} (scan : Nat → Except DeviceError α)
    (stop : Nat → Bool) (idx fuel : Nat) (sp : α)
    (hscan : scan idx = Except.ok sp) (hs : stop idx = false) :
    contRunAux scan stop idx (fuel + 1) =
      (sp :: (contRunAux scan stop (idx + 1) fuel).1,
        (contRunAux scan stop (idx + 1) fuel).2) := by
  simp [contRunAux, hscan, hs]

theorem contRunAux_finished_of_stop {α : Type} (dev : Nat → α)
    (stop : Nat → Bool) :
    ∀ (n idx : Nat), stop (idx + n) = true →
      ∃ l : List α,
        contRunAux (fun i => Except.ok (dev i)) stop idx (n + 1) =
          (l, .finished) ∧ 1 ≤ l.length ∧ l.length ≤ n + 1 := by
  intro n
  induction n with
  | zero =>
      intro idx h
      rw [Nat.add_zero] at h
      exact ⟨[dev idx],
        contRunAux_step_stop _ stop idx 0 (dev idx) rfl h, by simp, by simp⟩
  | succ m ih =>
      intro idx h
      by_cases hidx : stop idx = true
      · exact ⟨[dev idx],
          contRunAux_step_stop _ stop idx (m + 1) (dev idx) rfl hidx,
          by simp, by simp⟩
      · have h' : stop ((idx + 1) + m) = true := by
          have heq : (idx + 1) + m = idx + (m + 1) := by omega
          rw [heq]; exact h
        obtain ⟨l, hl, h1, h2⟩ := ih (idx + 1) h'
        refine ⟨dev idx :: l, ?_, by simp, by simp; omega⟩
        rw [contRunAux_step_go _ stop idx (m + 1) (dev idx) rfl
          (Bool.eq_false_iff.mpr hidx), hl]

theorem contRunAux_finished_length_le {α : Type}
    (scan : Nat → Except DeviceError α) (stop : Nat → Bool) :
    ∀ (fuel idx : Nat) (l : List α),
      contRunAux scan stop idx fuel = (l, .finished) →
      ∀ i, idx ≤ i → stop i = true → l.length ≤ i + 1 - idx := by
  intro fuel
  induction fuel with
  | zero => intro idx l h; simp [contRunAux] at h
  | succ m ih =>
      intro idx l h i hii hsi
      cases hscan : scan idx with
      | error e =>
          rw [contRunAux_step_error scan stop idx m e hscan] at h
          simp at h
      | ok sp =>
          by_cases hs : stop idx = true
          · rw [contRunAux_step_stop scan stop idx m sp hscan hs] at h
            simp at h
            subst h
            simp
            omega
          · rw [contRunAux_step_go scan stop idx m sp hscan
              (Bool.eq_false_iff.mpr hs)] at h
            simp at h
            have hi2 : idx + 1 ≤ i := by
              rcases Nat.lt_or_ge idx i with hlt | hge
              · omega
              · have heqi : i = idx := by omega
                rw [heqi] at hsi
                exact absurd hsi hs
            have heq : contRunAux scan stop (idx + 1) m =
                ((contRunAux scan stop (idx + 1) m).1, .finished) := by
              rw [← h.2]
            have hlen := ih (idx + 1)
              (contRunAux scan stop (idx + 1) m).1 heq i hi2 hsi
            rw [← h.1]
            simp
            omega

theorem contRunAux_no_stop_never_finishes {α : Type} (dev : Nat → α)
    (stop : Nat → Bool) (hstop : ∀ i, stop i = false) :
    ∀ (fuel idx : Nat),
      (contRunAux (fun i => Except.ok (dev i)) stop idx fuel).2 =
        ContOutcome.stillRunning := by
  intro fuel
  induction fuel with
  | zero => intro idx; simp [contRunAux]
  | succ m ih => intro idx; simp [contRunAux, hstop idx, ih (idx + 1)]

/-- C4: a Continuous run whose stop flag is observed set at the check after
emission `n` (some `n ≥ 1`) terminates with `break` having emitted a finite,
non-empty list of spectra; once the flag is observed set no further spectrum
is emitted (the emission count is at most any index at which the flag is
observed set); and if the flag is never set the loop never breaks, so the
completion (`finished`) event is never raised before a stop request. -/
theorem continuous_stop_run {α : Type} (dev : Nat → α) (stop : Nat → Bool)
    (n : Nat) (hn : 1 ≤ n) (hstop : stop n = true) :
    (∃ l : List α, contRun dev stop n = (l, .finished) ∧ 1 ≤ l.length ∧
        l.length ≤ n ∧ ∀ i, 1 ≤ i → stop i = true → l.length ≤ i) ∧
    (∀ stop2 : Nat → Bool, (∀ i, stop2 i = false) →
        ∀ fuel, (contRun dev stop2 fuel).2 ≠ ContOutcome.finished) := by
  constructor
  · have h1 : stop (1 + (n - 1)) = true := by
      have : 1 + (n - 1) = n := by omega
      rw [this]; exact hstop
    obtain ⟨l, hl, hle, hub⟩ := contRunAux_finished_of_stop dev stop (n - 1) 1 h1
    have hfuel : (n - 1) + 1 = n := by omega
    rw [hfuel] at hl
    refine ⟨l, hl, hle, by omega, ?_⟩
    intro i hi hsi
    have := contRunAux_finished_length_le (fun i => Except.ok (dev i)) stop n 1 l hl i hi hsi
    omega
  · intro stop2 h2 fuel
    rw [contRun, contRunAux_no_stop_never_finishes dev stop2 h2 fuel 1]
    simp

theorem continuous_stop_run_witness :
    1 ≤ 3 ∧ (fun i => i == 3) 3 = true ∧
    ((∃ l : List Nat, contRun (fun i => i) (fun i => i == 3) 3 =
          (l, .finished) ∧ 1 ≤ l.length ∧ l.length ≤ 3 ∧
          ∀ i, 1 ≤ i → (fun i => i == 3) i = true → l.length ≤ i) ∧
      (∀ stop2 : Nat → Bool, (∀ i, stop2 i = false) →
          ∀ fuel, (contRun (fun i => i) stop2 fuel).2 ≠ ContOutcome.finished)) :=
  ⟨by decide, by decide,
    continuous_stop_run (fun i => i) (fun i => i == 3) 3 (by decide) (by decide)⟩

/-- A device whose second `get_spectrum()` call raises `DeviceError` and
whose other calls succeed (the spec's end-to-end scenario C). -/
def failingScan : Nat → Except DeviceError Nat :=
  fun i => if i = 2 then Except.error DeviceError.deviceError else Except.ok i

/-- C6 counterexample: with a device that raises `DeviceError` on the second
read and no stop request, the continuous run terminates with the exception
escaping `run` uncaught (`ContOutcome.raised`), not with a normal completion:
neither worker's `run` has a `try`/`except`, so the error is not delivered
through the completion notification. -/
theorem continuous_error_escapes_uncaught :
    contRunAux failingScan (fun _ => false) 1 5 =
      ([1], ContOutcome.raised DeviceError.deviceError) ∧
    ContOutcome.raised DeviceError.deviceError ≠ ContOutcome.finished := by
  decide

/-- C6 amended: an error raised by a device read at step `j` of a Continuous
run (all earlier reads succeeding, no stop requested) terminates the run
after the `j - 1` preceding emissions have been delivered, but the error
escapes the worker's `run` as an uncaught exception (`ContOutcome.raised`)
rather than being delivered through the completion notification; the
`finished` handler `worker_has_finished` (gui.py lines 148-153) takes no
success/failure payload at all. -/
theorem continuous_error_terminates_run {α : Type}
    (scan : Nat → Except DeviceError α) (e : DeviceError) (j : Nat)
    (hj : 1 ≤ j) (hfail : scan j = Except.error e)
    (hok : ∀ i, 1 ≤ i → i < j → ∃ a, scan i = Except.ok a)
    (stop : Nat → Bool) (hstop : ∀ i, stop i = false)
    (fuel : Nat) (hfuel : j ≤ fuel) :
    ∃ l : List α, contRunAux scan stop 1 fuel =
        (l, ContOutcome.raised e) ∧ l.length = j - 1 := by
  suffices hgen : ∀ (f idx : Nat), 1 ≤ idx → idx ≤ j → j < idx + f →
      ∃ l : List α, contRunAux scan stop idx f =
        (l, ContOutcome.raised e) ∧ l.length = j - idx by
    obtain ⟨l, hl, hlen⟩ := hgen fuel 1 le_rfl hj (by omega)
    exact ⟨l, hl, hlen⟩
  intro f
  induction f with
  | zero => intro idx _ h1 h2; omega
  | succ m ih =>
      intro idx hidx1 hidxj hjf
      by_cases hij : idx = j
      · refine ⟨[], ?_, by simp [hij]⟩
        rw [hij, contRunAux_step_error scan stop j m e hfail]
      · obtain ⟨a, ha⟩ := hok idx hidx1 (by omega)
        obtain ⟨l, hl, hlen⟩ := ih (idx + 1) (by omega) (by omega) (by omega)
        refine ⟨a :: l, ?_, by simp [hlen]; omega⟩
        rw [contRunAux_step_go scan stop idx m a ha (hstop idx), hl]

theorem continuous_error_terminates_run_witness :
    1 ≤ 2 ∧ failingScan 2 = Except.error DeviceError.deviceError ∧ 2 ≤ 5 ∧
    ∃ l : List Nat, contRunAux failingScan (fun _ => false) 1 5 =
        (l, ContOutcome.raised DeviceError.deviceError) ∧ l.length = 2 - 1 :=
  ⟨by decide, rfl, by decide,
    continuous_error_terminates_run failingScan DeviceError.deviceError 2
      (by decide) rfl
      (fun i h1 h2 => ⟨i, by
        have hone : i = 1 := by omega
        subst hone
        rfl⟩)
      (fun _ => false) (fun _ => rfl) 5 (by decide)⟩

/-- The `UserInterface` state visible to the start/stop logic: the enabled
state of the measurement buttons (single/integrate/continuous move together
via `disable_measurement_buttons` / `worker_has_finished`) and of the stop
button, whether each worker's thread is running (`QThread.isRunning`), each
worker's `stopped` flag, and the progress bar configuration. -/
structure SupState where
  startEnabled : Bool
  stopEnabled : Bool
  intRunning : Bool
  contRunning : Bool
  intStopped : Bool
  contStopped : Bool
  progressMin : Nat
  progressMax : Nat
  progressValue : Nat
  deriving DecidableEq, Repr

/-- `UserInterface.disable_measurement_buttons` (gui.py lines 142-146). -/
def disable_measurement_buttons (s : SupState) : SupState :=
  { s with startEnabled := false, stopEnabled := true }

/-- `UserInterface.worker_has_finished` (gui.py lines 148-153): re-enables
the measurement buttons and disables the stop button.  The slot takes no
parameters: the completion notification carries no success/failure status. -/
def worker_has_finished (s : SupState) : SupState :=
  { s with startEnabled := true, stopEnabled := false }

/-- The error the spec's supervisor contract (§4.3) raises on a `start*`
call while a worker is `Running`.  Present in the model only so the code's
actual behaviour can be compared against it; nothing in gui.py raises it. -/
inductive StartError where
  | alreadyRunning
  deriving DecidableEq, Repr

/-- State effect of the `UserInterface.integrate_spectrum` slot (gui.py
lines 117-124) together with the started run's first action: disables the
measurement buttons, sets the progress bar to range `(0, count)` and value
`0`, starts the integrate worker, whose `run` first resets its `stopped`
flag to `False` (line 46). -/
def integrateStart (s : SupState) (count : Nat) : SupState :=
  { disable_measurement_buttons s with
      progressMin := 0, progressMax := count, progressValue := 0,
      intRunning := true, intStopped := false }

/-- `UserInterface.integrate_spectrum` as a fallible call: the slot performs
no check of any worker's running state and raises nothing, so it always
returns `Except.ok`. -/
def integrate_spectrum (s : SupState) (count : Nat) :
    Except StartError SupState :=
  Except.ok (integrateStart s count)

/-- State effect of the `UserInterface.continuous_spectrum` slot (gui.py
lines 126-132) together with the started run's first action: disables the
measurement buttons, sets the progress bar to range `(0, 0)`, starts the
continuous worker, whose `run` first resets its `stopped` flag to `False`
(line 58). -/
def continuousStart (s : SupState) : SupState :=
  { disable_measurement_buttons s with
      progressMin := 0, progressMax := 0,
      contRunning := true, contStopped := false }

/-- `UserInterface.continuous_spectrum` as a fallible call: like
`integrate_spectrum` it checks nothing and always returns `Except.ok`. -/
def continuous_spectrum (s : SupState) : Except StartError SupState :=
  Except.ok (continuousStart s)

/-- `UserInterface.stop_measurement` (gui.py lines 134-140): if the
continuous worker's thread is running, set its `stopped` flag and reset the
progress bar range to `(0, 1)`; otherwise — whether the integrate worker is
running or nothing is — set the integrate worker's `stopped` flag. -/
def stop_measurement (s : SupState) : SupState :=
  if s.contRunning then
    { s with contStopped := true, progressMin := 0, progressMax := 1 }
  else
    { s with intStopped := true }

/-- A state in which only the continuous worker's thread is running. -/
def contRunningState : SupState :=
  { startEnabled := false, stopEnabled := true, intRunning := false,
    contRunning := true, intStopped := false, contStopped := false,
    progressMin := 0, progressMax := 0, progressValue := 0 }

/-- A state in which no worker's thread is running. -/
def idleState : SupState :=
  { startEnabled := true, stopEnabled := false, intRunning := false,
    contRunning := false, intStopped := false, contStopped := false,
    progressMin := 0, progressMax := 1, progressValue := 1 }

/-- C3 counterexample: with the continuous worker running, calling the
integrate-start slot does not fail with `AlreadyRunningError` — it succeeds
and leaves both workers running.  gui.py contains no running-state check and
no such error type. -/
theorem start_while_running_not_rejected :
    integrate_spectrum contRunningState 5 ≠
        Except.error StartError.alreadyRunning ∧
    ∃ s' : SupState, integrate_spectrum contRunningState 5 = Except.ok s' ∧
      s'.intRunning = true ∧ s'.contRunning = true := by
  refine ⟨fun h => ?_, integrateStart contRunningState 5, rfl, rfl, rfl⟩
  exact Except.noConfusion h

/-- The external events that drive the supervisor: button clicks (a Qt
button that is disabled emits no `clicked` signal, so clicks are gated on
the button's enabled state) and worker-thread completions (a `finished`
signal can only come from a worker whose thread was running). -/
inductive UIEvent where
  | clickIntegrate (count : Nat)
  | clickContinuous
  | clickStop
  | intFinished
  | contFinished
  deriving DecidableEq, Repr

/-- One supervisor transition per event, gated as in the Qt event system:
clicks on disabled buttons and `finished` signals from non-running workers
do nothing. -/
def uiStep (s : SupState) : UIEvent → SupState
  | .clickIntegrate count =>
      if s.startEnabled then integrateStart s count else s
  | .clickContinuous =>
      if s.startEnabled then continuousStart s else s
  | .clickStop =>
      if s.stopEnabled then stop_measurement s else s
  | .intFinished =>
      if s.intRunning then worker_has_finished { s with intRunning := false }
      else s
  | .contFinished =>
      if s.contRunning then worker_has_finished { s with contRunning := false }
      else s

/-- Start-up state of `UserInterface`: no worker running, measurement
buttons enabled, stop button disabled. -/
def initState : SupState :=
  { startEnabled := true, stopEnabled := false, intRunning := false,
    contRunning := false, intStopped := false, contStopped := false,
    progressMin := 0, progressMax := 100, progressValue := 0 }

/-- Mutual exclusion as the code actually provides it: the two workers are
never both running, and whenever the measurement buttons are enabled no
worker is running. -/
def mutexInv (s : SupState) : Bool :=
  !(s.intRunning && s.contRunning) &&
    (!s.startEnabled || (!s.intRunning && !s.contRunning))

theorem uiStep_preserves_mutexInv (s : SupState) (e : UIEvent)
    (h : mutexInv s = true) : mutexInv (uiStep s e) = true := by
  cases e with
  | clickIntegrate count =>
      by_cases hs : s.startEnabled = true
      · simp [uiStep, hs, integrateStart, disable_measurement_buttons,
          mutexInv] at h ⊢
        tauto
      · simp only [uiStep]
        rw [if_neg (by simpa using hs)]
        exact h
  | clickContinuous =>
      by_cases hs : s.startEnabled = true
      · simp [uiStep, hs, continuousStart, disable_measurement_buttons,
          mutexInv] at h ⊢
        tauto
      · simp only [uiStep]
        rw [if_neg (by simpa using hs)]
        exact h
  | clickStop =>
      by_cases hs : s.stopEnabled = true
      · by_cases hc : s.contRunning = true
        · simp_all [uiStep, stop_measurement, mutexInv]
        · simp_all [uiStep, stop_measurement, mutexInv]
      · simp only [uiStep]
        rw [if_neg (by simpa using hs)]
        exact h
  | intFinished =>
      by_cases hr : s.intRunning = true
      · simp_all [uiStep, worker_has_finished, mutexInv]
      · simp only [uiStep]
        rw [if_neg (by simpa using hr)]
        exact h
  | contFinished =>
      by_cases hr : s.contRunning = true
      · simp_all [uiStep, worker_has_finished, mutexInv]
      · simp only [uiStep]
        rw [if_neg (by simpa using hr)]
        exact h

theorem foldl_uiStep_preserves_mutexInv (evs : List UIEvent) :
    ∀ s : SupState, mutexInv s = true →
      mutexInv (evs.foldl uiStep s) = true := by
  induction evs with
  | nil => intro s h; exact h
  | cons e t ih =>
      intro s h
      exact ih (uiStep s e) (uiStep_preserves_mutexInv s e h)

/-- C3 amended: a `start*` slot invoked while the other worker is running
does not fail — it returns normally (no `AlreadyRunningError` exists in the
code) and starts the second worker.  What the code does guarantee is
UI-gated mutual exclusion: starting a worker disables every measurement
button until `worker_has_finished` re-enables them, so along any sequence of
button-gated events from the start-up state, the two workers are never both
running. -/
theorem ui_mutual_exclusion :
    (∀ (s : SupState) (count : Nat),
        integrate_spectrum s count = Except.ok (integrateStart s count) ∧
        continuous_spectrum s = Except.ok (continuousStart s)) ∧
    (∀ evs : List UIEvent, mutexInv (evs.foldl uiStep initState) = true) := by
  refine ⟨fun s count => ⟨rfl, rfl⟩, fun evs => ?_⟩
  exact foldl_uiStep_preserves_mutexInv evs initState (by decide)

/-- C5 counterexample: calling `stop_measurement` while no worker is running
is not a state-preserving no-op — the `else` branch (gui.py line 140) sets
the integrate worker's `stopped` flag to true even though it is not
running. -/
theorem stop_when_idle_changes_state :
    stop_measurement idleState ≠ idleState ∧
    idleState.intStopped = false ∧
    (stop_measurement idleState).intStopped = true := by
  decide

/-- C5 amended: `stop_measurement` never raises (it is a total function of
the state) and routes on `continuous_spectrum_worker.isRunning()` alone:
when the continuous worker is running it sets exactly that worker's stop
flag (plus the progress-bar range); in every other case — the integrate
worker running, or no worker running — it sets the integrate worker's stop
flag.  When no worker is running the call therefore does change state: it
sets the idle integrate worker's stop flag to true, touching nothing else;
this is behaviourally harmless, since `IntegrateSpectrumWorker.run` resets
the flag at the start of the next run. -/
theorem stop_measurement_behavior (s : SupState) :
    (s.contRunning = true →
      stop_measurement s =
        { s with contStopped := true, progressMin := 0, progressMax := 1 }) ∧
    (s.contRunning = false →
      stop_measurement s = { s with intStopped := true }) := by
  constructor
  · intro h; simp [stop_measurement, h]
  · intro h; simp [stop_measurement, h]

theorem stop_measurement_behavior_witness :
    stop_measurement contRunningState =
      { contRunningState with
          contStopped := true, progressMin := 0, progressMax := 1 } :=
  (stop_measurement_behavior contRunningState).1 rfl

/-- The program steps that can touch a worker's `stopped` flag.  In gui.py
the only assignments to a worker's `stopped` attribute are `self.stopped =
False` at the top of `run` (lines 46 and 58) and `self.stopped = True` in
`MeasurementWorker.stop` (line 31); `other` stands for every step that does
not write the flag.  (Line 53 writes `self.experiment.stopped`, a different
attribute on the experiment object, not the worker's flag.) -/
inductive WEvent where
  | runStart
  | stopCall
  | other
  deriving DecidableEq, Repr

/-- Effect of one program step on the worker's `stopped` flag. -/
def flagStep (b : Bool) : WEvent → Bool
  | .runStart => false
  | .stopCall => true
  | .other => b

/-- The successive values of the worker's `stopped` flag over a run: the
value `false` written by the first line of `run`, then the value after each
subsequent step of the run. -/
def flagTrace (evs : List WEvent) : List Bool :=
  List.scanl flagStep false evs

/-- Number of `false → true` transitions between adjacent values. -/
def boolRises : List Bool → Nat
  | [] => 0
  | [_] => 0
  | a :: b :: t =>
      (if a = false ∧ b = true then 1 else 0) + boolRises (b :: t)

/-- Number of `true → false` transitions between adjacent values. -/
def boolFalls : List Bool → Nat
  | [] => 0
  | [_] => 0
  | a :: b :: t =>
      (if a = true ∧ b = false then 1 else 0) + boolFalls (b :: t)

theorem scanl_flagStep_cons_head (b : Bool) :
    ∀ t : List WEvent, ∃ rest : List Bool,
      List.scanl flagStep b t = b :: rest := by
  intro t
  cases t with
  | nil => exact ⟨[], rfl⟩
  | cons e t' => exact ⟨List.scanl flagStep (flagStep b e) t', rfl⟩

theorem scanl_flag_bounds :
    ∀ t : List WEvent, WEvent.runStart ∉ t →
      ∀ b : Bool,
        boolFalls (List.scanl flagStep b t) = 0 ∧
        boolRises (List.scanl flagStep b t) ≤ (if b then 0 else 1) := by
  intro t
  induction t with
  | nil =>
      intro _ b
      constructor
      · simp [boolFalls]
      · simp [boolRises]
  | cons e t' ih =>
      intro h b
      have he : e ≠ WEvent.runStart := fun hh => h (hh ▸ List.mem_cons_self e t')
      have ht' : WEvent.runStart ∉ t' := fun hh => h (List.mem_cons_of_mem e hh)
      obtain ⟨rest, hrest⟩ := scanl_flagStep_cons_head (flagStep b e) t'
      have hscan : List.scanl flagStep b (e :: t') =
          b :: flagStep b e :: rest := by
        rw [List.scanl_cons, hrest]
        rfl
      obtain ⟨hfalls, hrises⟩ := ih ht' (flagStep b e)
      rw [hrest] at hfalls hrises
      rw [hscan]
      cases e with
      | runStart => exact absurd rfl he
      | stopCall =>
          cases b with
          | false =>
              refine ⟨?_, ?_⟩
              · simpa [boolFalls, flagStep] using hfalls
              · simp only [flagStep] at hrises ⊢
                simp [boolRises] at hrises ⊢
                omega
          | true =>
              refine ⟨?_, ?_⟩
              · simpa [boolFalls, flagStep] using hfalls
              · simp only [flagStep] at hrises ⊢
                simp [boolRises] at hrises ⊢
                omega
      | other =>
          cases b with
          | false =>
              refine ⟨?_, ?_⟩
              · simpa [boolFalls, flagStep] using hfalls
              · simp only [flagStep] at hrises ⊢
                simp [boolRises] at hrises ⊢
                omega
          | true =>
              refine ⟨?_, ?_⟩
              · simpa [boolFalls, flagStep] using hfalls
              · simp only [flagStep] at hrises ⊢
                simp [boolRises] at hrises ⊢
                omega

/-- C7: over any single run — a sequence of program steps containing no
further run start — the worker's `stopped` flag starts out `false` (the
reset written by the first line of `run`), moves `false → true` at most once
(the only write of `true` is `stop()`, by definition of `flagStep`), and is
never set back to `false` within the run. -/
theorem stopflag_per_run (evs : List WEvent) (h : WEvent.runStart ∉ evs) :
    (flagTrace evs).head? = some false ∧
    boolRises (flagTrace evs) ≤ 1 ∧
    boolFalls (flagTrace evs) = 0 := by
  obtain ⟨rest, hrest⟩ := scanl_flagStep_cons_head false evs
  obtain ⟨hfalls, hrises⟩ := scanl_flag_bounds evs h false
  refine ⟨?_, ?_, hfalls⟩
  · rw [flagTrace, hrest]; rfl
  · simpa using hrises

theorem stopflag_per_run_witness :
    WEvent.runStart ∉
        [WEvent.other, WEvent.stopCall, WEvent.other, WEvent.stopCall] ∧
    ((flagTrace
          [WEvent.other, WEvent.stopCall, WEvent.other,
            WEvent.stopCall]).head? = some false ∧
      boolRises (flagTrace
          [WEvent.other, WEvent.stopCall, WEvent.other,
            WEvent.stopCall]) ≤ 1 ∧
      boolFalls (flagTrace
          [WEvent.other, WEvent.stopCall, WEvent.other,
            WEvent.stopCall]) = 0) :=
  ⟨by decide,
    stopflag_per_run
      [WEvent.other, WEvent.stopCall, WEvent.other, WEvent.stopCall]
      (by decide)⟩

/-- The result-sink state of `UserInterface`: the last received spectrum
(`_wavelengths` / `_intensities`, both `None` until a measurement is
plotted, gui.py lines 67-68). -/
structure SinkState (α : Type) where
  wavelengths : Option (List α)
  intensities : Option (List α)
  deriving DecidableEq, Repr

/-- The rows `save_data` hands to `csv.writer` (gui.py lines 204-207): the
header row, then one row per `zip(self._wavelengths, self._intensities)`
pair, each cell rendered by `showF`. -/
def save_rows {α : Type} (showF : α → String) (ws ins : List α) :
    List (List String) :=
  ["Wavelength (nm)", "Intensity"] ::
    (ws.zip ins).map fun p => [showF p.1, showF p.2]

/-- Observable outcome of `UserInterface.save_data` (gui.py lines 195-210):
either the "No data" warning box with no file written, or a file written
with the given rows followed by the "Data saved" information box. -/
inductive SaveOutcome where
  | warned
  | saved (rows : List (List String))
  deriving DecidableEq, Repr

/-- `UserInterface.save_data` (gui.py lines 195-210): if either stored array
is `None`, show the warning and write nothing; otherwise write the header
row and the zipped data rows.  The stored spectrum is not modified on either
path. -/
def save_data {α : Type} (showF : α → String) (s : SinkState α) :
    SinkState α × SaveOutcome :=
  match s.wavelengths, s.intensities with
  | some ws, some ins => (s, .saved (save_rows showF ws ins))
  | some _, none => (s, .warned)
  | none, _ => (s, .warned)

theorem getElem_zip_map {α β : Type} (f : α × α → β) :
    ∀ (ws ins : List α) (j : Nat) (wj ij : α),
      ws[j]? = some wj → ins[j]? = some ij →
      ((ws.zip ins).map f)[j]? = some (f (wj, ij)) := by
  intro ws
  induction ws with
  | nil => intro ins j wj ij hw _; simp at hw
  | cons w ws' ih =>
      intro ins j wj ij hw hi
      cases ins with
      | nil => simp at hi
      | cons i ins' =>
          cases j with
          | zero =>
              simp at hw hi
              subst hw
              subst hi
              simp
          | succ j' =>
              simp only [List.getElem?_cons_succ] at hw hi
              simpa using ih ins' j' wj ij hw hi

/-- C8: for a stored spectrum of `n` sample pairs (both arrays of length
`n`), `save_data`'s table is the header row `Wavelength (nm), Intensity`
followed by exactly `n` data rows, the `j`-th data row holding the `j`-th
wavelength/intensity pair in the original order. -/
theorem save_rows_table {α : Type} (showF : α → String) (ws ins : List α)
    (n : Nat) (hw : ws.length = n) (hi : ins.length = n) :
    (save_rows showF ws ins).length = n + 1 ∧
    (save_rows showF ws ins)[0]? = some ["Wavelength (nm)", "Intensity"] ∧
    ∀ j wj ij, ws[j]? = some wj → ins[j]? = some ij →
      (save_rows showF ws ins)[j + 1]? = some [showF wj, showF ij] := by
  refine ⟨?_, by simp [save_rows], ?_⟩
  · simp [save_rows, hw, hi]
  · intro j wj ij hwj hij
    have := getElem_zip_map (fun p : α × α => [showF p.1, showF p.2])
      ws ins j wj ij hwj hij
    simpa [save_rows] using this

theorem save_rows_table_witness :
    [10, 20].length = 2 ∧ [5, 7].length = 2 ∧
    ((save_rows (fun k : Nat => toString k) [10, 20] [5, 7]).length = 2 + 1 ∧
      (save_rows (fun k : Nat => toString k) [10, 20] [5, 7])[0]? =
        some ["Wavelength (nm)", "Intensity"] ∧
      ∀ j wj ij, [10, 20][j]? = some wj → [5, 7][j]? = some ij →
        (save_rows (fun k : Nat => toString k) [10, 20] [5, 7])[j + 1]? =
          some [toString wj, toString ij]) :=
  ⟨rfl, rfl,
    save_rows_table (fun k : Nat => toString k) [10, 20] [5, 7] 2 rfl rfl⟩

/-- C10: invoking `save_data` before any spectrum has been received (either
stored array still `None`) shows the warning, writes no file, and leaves the
stored spectrum state unchanged. -/
theorem save_data_no_spectrum {α : Type} (showF : α → String)
    (s : SinkState α)
    (h : s.wavelengths = none ∨ s.intensities = none) :
    save_data showF s = (s, SaveOutcome.warned) := by
  rcases h with h | h
  · cases hi : s.intensities <;> simp [save_data, h, hi]
  · cases hw : s.wavelengths <;> simp [save_data, h, hw]

theorem save_data_no_spectrum_witness :
    (SinkState.mk (α := Nat) none none).wavelengths = none ∧
    save_data (fun k : Nat => toString k) (SinkState.mk none none) =
      (SinkState.mk none none, SaveOutcome.warned) :=
  ⟨rfl,
    save_data_no_spectrum (fun k : Nat => toString k)
      (SinkState.mk none none) (Or.inl rfl)⟩

/-- A Python `TypeError` for a call that supplies fewer positional arguments
than the callee requires; `n` is the number of missing arguments. -/
inductive PyCallError where
  | missingArgs (n : Nat)
  deriving DecidableEq, Repr

/-- Number of required positional parameters of `UserInterface.plot_data`
besides `self` (gui.py lines 155-157): `wavelengths` and `intensities`,
neither of which has a default value. -/
def plot_data_required_args : Nat := 2

/-- Python call semantics: a call that provides fewer positional arguments
than required raises `TypeError` before the callee's body runs. -/
def pycallCheck (required provided : Nat) : Except PyCallError Unit :=
  if provided < required then
    Except.error (PyCallError.missingArgs (required - provided))
  else
    Except.ok ()

/-- The per-plot state read by `toggle_lines_markers`: the `_show_lines`
flag (gui.py line 69). -/
structure PlotState where
  showLines : Bool
  deriving DecidableEq, Repr

/-- `UserInterface.toggle_lines_markers` (gui.py lines 186-189): flips
`_show_lines`, then evaluates `self.plot_data()` — a call providing zero of
`plot_data`'s required positional arguments. -/
def toggle_lines_markers (s : PlotState) : PlotState × Except PyCallError Unit :=
  ({ s with showLines := !s.showLines },
    pycallCheck plot_data_required_args 0)

/-- C9: every invocation of `toggle_lines_markers` first flips `_show_lines`
and then fails: the zero-argument call to `plot_data`, which requires its
two positional arguments `wavelengths` and `intensities`, raises a
missing-arguments `TypeError` in every state. -/
theorem toggle_lines_markers_always_errors (s : PlotState) :
    (toggle_lines_markers s).1.showLines = !s.showLines ∧
    (toggle_lines_markers s).2 =
      Except.error (PyCallError.missingArgs 2) := by
  exact ⟨rfl, rfl⟩

end OceanOptics
